import Mathlib

/-!
Shallow embedding of the tournament core of `src/tournament_app.py`:
the standings engine (`calculate_leaderboard`), the team-usage tracker
(`get_used_teams`), and the selectable-team-options logic of the
score-entry tab.  Python dicts are modelled as association lists that
preserve insertion order; Python sets as `Finset String`; optional
scores/teams as `Option`.
-/

/-- A match record, the dict rows of `data["matches"]`. -/
structure MatchRec where
  week : Nat
  match_id : Nat
  p1 : String
  p2 : String
  score1 : Option Nat := none
  score2 : Option Nat := none
  team1 : Option String := none
  team2 : Option String := none
  deriving Repr, DecidableEq

/-- The tournament snapshot `data = {"players": ..., "matches": ...}`
(the `matches` key is called `matchList` here because `matches` is a
reserved word in Lean). -/
structure TournamentData where
  players : List String
  matchList : List MatchRec
  deriving Repr, DecidableEq

/-- Python truthiness of `m.get('team1')`: a team field counts as assigned
iff it is present and non-empty. -/
def teamAssigned : Option String → Bool
  | some t => t ≠ ""
  | none => false

/-- Loop body of `get_used_teams`: add `team1` when `p1` matches and the team
is assigned, then `team2` symmetrically. -/
def usedStep (player_name : String) (used : Finset String) (m : MatchRec) : Finset String :=
  let u1 := match m.team1 with
    | some t => if m.p1 = player_name ∧ t ≠ "" then insert t used else used
    | none => used
  match m.team2 with
  | some t => if m.p2 = player_name ∧ t ≠ "" then insert t u1 else u1
  | none => u1

/-- `get_used_teams(data, player_name)` from the source: fold the loop body
over all matches starting from the empty set. -/
def get_used_teams (data : TournamentData) (player_name : String) : Finset String :=
  data.matchList.foldl (usedStep player_name) ∅

/-- The contribution of a single match to one player's used-team set. -/
def matchContrib (player_name : String) (m : MatchRec) : Finset String :=
  (match m.team1 with
   | some t => if m.p1 = player_name ∧ t ≠ "" then {t} else ∅
   | none => ∅) ∪
  (match m.team2 with
   | some t => if m.p2 = player_name ∧ t ≠ "" then {t} else ∅
   | none => ∅)

/-- Used-team set written the way the spec words it: the `team1` values of
matches where `p1` is the player and `team1` is assigned, unioned with the
`team2` values of matches where `p2` is the player and `team2` is assigned. -/
def usedTeamsSpec (data : TournamentData) (player : String) : Finset String :=
  ((data.matchList.filter (fun m => m.p1 = player ∧ teamAssigned m.team1)).filterMap
      (fun m => m.team1)).toFinset ∪
  ((data.matchList.filter (fun m => m.p2 = player ∧ teamAssigned m.team2)).filterMap
      (fun m => m.team2)).toFinset

/-- Per-player statistics row, the inner dict of the `stats` accumulator. -/
structure Stats where
  GP : Nat
  W : Nat
  D : Nat
  L : Nat
  GF : Nat
  GA : Nat
  GD : Int
  Pts : Nat
  deriving Repr, DecidableEq

/-- The all-zero row every player starts from. -/
def initStats : Stats := ⟨0, 0, 0, 0, 0, 0, 0, 0⟩

/-- The `stats` dict: an insertion-ordered association list. -/
abbrev StatsTable := List (String × Stats)

/-- Membership test `p in stats`. -/
def containsKey (d : StatsTable) (p : String) : Bool :=
  d.any (fun kv => kv.1 = p)

/-- One step of the dict comprehension `{p: init for p in players}`: a repeated
player keeps its first position (the value written again is identical). -/
def dictInit (d : StatsTable) (p : String) : StatsTable :=
  if containsKey d p then d else d ++ [(p, initStats)]

/-- The initial `stats` dict seeded from the players list. -/
def mkInit (players : List String) : StatsTable :=
  players.foldl dictInit []

/-- In-place update `stats[p] = f(stats[p])` (keys are unchanged). -/
def updSt (d : StatsTable) (p : String) (f : Stats → Stats) : StatsTable :=
  d.map (fun kv => if kv.1 = p then (kv.1, f kv.2) else kv)

/-- Goal-figures update of the scoring loop for one participant. -/
def goalUpd (sFor sAgainst : Nat) (st : Stats) : Stats :=
  { st with GP := st.GP + 1, GF := st.GF + sFor, GA := st.GA + sAgainst, GD := st.GD + ((sFor : Int) - (sAgainst : Int)) }

/-- Win update: `W += 1; Pts += 3`. -/
def winUpd (st : Stats) : Stats := { st with W := st.W + 1, Pts := st.Pts + 3 }

/-- Loss update: `L += 1`. -/
def lossUpd (st : Stats) : Stats := { st with L := st.L + 1 }

/-- Draw update: `D += 1; Pts += 1`. -/
def drawUpd (st : Stats) : Stats := { st with D := st.D + 1, Pts := st.Pts + 1 }

/-- One iteration of the scoring loop of `calculate_leaderboard`: skip the
match unless both scores are present, otherwise add goal figures for each
participant that is in the table, then award W/L or D and points. -/
def applyMatch (d : StatsTable) (m : MatchRec) : StatsTable :=
  match m.score1, m.score2 with
  | some s1, some s2 =>
    let d1 := if containsKey d m.p1 then updSt d m.p1 (goalUpd s1 s2) else d
    let d2 := if containsKey d1 m.p2 then updSt d1 m.p2 (goalUpd s2 s1) else d1
    if s1 > s2 then
      let d3 := if containsKey d2 m.p1 then updSt d2 m.p1 winUpd else d2
      if containsKey d3 m.p2 then updSt d3 m.p2 lossUpd else d3
    else if s2 > s1 then
      let d3 := if containsKey d2 m.p2 then updSt d2 m.p2 winUpd else d2
      if containsKey d3 m.p1 then updSt d3 m.p1 lossUpd else d3
    else
      let d3 := if containsKey d2 m.p1 then updSt d2 m.p1 drawUpd else d2
      if containsKey d3 m.p2 then updSt d3 m.p2 drawUpd else d3
  | _, _ => d

/-- The combined effect of one match on the row stored under key `p`
(entry-wise view of `applyMatch`). -/
def matchEffect (m : MatchRec) (p : String) (st : Stats) : Stats :=
  match m.score1, m.score2 with
  | some s1, some s2 =>
    let st1 := if p = m.p1 then goalUpd s1 s2 st else st
    let st2 := if p = m.p2 then goalUpd s2 s1 st1 else st1
    if s1 > s2 then
      let st3 := if p = m.p1 then winUpd st2 else st2
      if p = m.p2 then lossUpd st3 else st3
    else if s2 > s1 then
      let st3 := if p = m.p2 then winUpd st2 else st2
      if p = m.p1 then lossUpd st3 else st3
    else
      let st3 := if p = m.p1 then drawUpd st2 else st2
      if p = m.p2 then drawUpd st3 else st3
  | _, _ => st

/-- The ranking key of a row: `(Pts, GD, GF)`. -/
def statKey (s : Stats) : Nat × Int × Nat := (s.Pts, s.GD, s.GF)

/-- Lexicographic order on ranking keys. -/
def keyLexLe (a b : Nat × Int × Nat) : Prop :=
  a.1 < b.1 ∨ (a.1 = b.1 ∧ (a.2.1 < b.2.1 ∨ (a.2.1 = b.2.1 ∧ a.2.2 ≤ b.2.2)))

instance (a b : Nat × Int × Nat) : Decidable (keyLexLe a b) := by
  unfold keyLexLe; infer_instance

/-- Sort comparator of `sort_values(by=['Pts','GD','GF'], ascending=False)`:
row `a` may come before row `b` iff `b`'s key is lexicographically ≤ `a`'s. -/
def rowLe (a b : String × Stats) : Bool :=
  decide (keyLexLe (statKey b.2) (statKey a.2))

/-- The `stats` dict after the scoring loop, before sorting. -/
def stats_dict (data : TournamentData) : StatsTable :=
  data.matchList.foldl applyMatch (mkInit data.players)

/-- `calculate_leaderboard(data)`: fold the matches into the stats dict and
sort descending by `(Pts, GD, GF)` (pandas multi-column sort is stable). -/
def calculate_leaderboard (data : TournamentData) : StatsTable :=
  (stats_dict data).mergeSort rowLe

/-- The rendered rows after `reset_index` and `df.index += 1`: each row is
paired with its 1-based rank. -/
def leaderboard_rows (data : TournamentData) : List (Nat × String × Stats) :=
  (calculate_leaderboard data).enum.map (fun x => (x.1 + 1, x.2))

/-- Sum of the `GF` column of a table. -/
def sumGF (d : StatsTable) : Nat := (d.map (fun kv => kv.2.GF)).sum

/-- Sum of the `GA` column of a table. -/
def sumGA (d : StatsTable) : Nat := (d.map (fun kv => kv.2.GA)).sum

/-- First-occurrence deduplication relative to an already-seen prefix:
the key order of a Python dict built by repeated insertion. -/
def dedupFrom (seen : List String) : List String → List String
  | [] => []
  | p :: ps => if p ∈ seen then dedupFrom seen ps else p :: dedupFrom (seen ++ [p]) ps

/-- The roster literal of the source, in source order, before the outer
`sorted(...)` call. -/
def TOP_TEAMS_raw : List String :=
  ["Manchester City", "Real Madrid", "Bayern Munich", "Liverpool", "Arsenal",
   "Inter Milan", "Bayer Leverkusen", "Paris Saint-Germain", "FC Barcelona",
   "Atletico Madrid", "Juventus", "Borussia Dortmund", "AC Milan", "RB Leipzig",
   "Atalanta", "Benfica", "Sporting CP", "Napoli", "Tottenham Hotspur",
   "Chelsea", "Manchester United", "Newcastle United", "Aston Villa", "Sevilla",
   "AS Roma", "Lazio", "PSV Eindhoven", "Feyenoord", "Galatasaray", "Ajax",
   "FC Porto",
   "Argentina", "France ", "England ",
   "Brazil ", "Spain ", "Portugal ",
   "Netherlands ", "Belgium ", "Italy ",
   "Germany ", "Croatia ", "Uruguay ", "Norway "]

/-- `TOP_TEAMS = sorted([...])`: the roster, sorted ascending. -/
def TOP_TEAMS : List String := TOP_TEAMS_raw.mergeSort (fun a b => a ≤ b)

/-- Tab-2 exclusion for the home side: take `get_used_teams(data, match.p1)`
and, when the match's current `team1` is in that set, remove it. -/
def used_excl1 (data : TournamentData) (m : MatchRec) : Finset String :=
  let used := get_used_teams data m.p1
  match m.team1 with
  | some t => if t ∈ used then used.erase t else used
  | none => used

/-- Tab-2 exclusion for the away side, symmetric to `used_excl1`. -/
def used_excl2 (data : TournamentData) (m : MatchRec) : Finset String :=
  let used := get_used_teams data m.p2
  match m.team2 with
  | some t => if t ∈ used then used.erase t else used
  | none => used

/-- `opts_p1 = sorted([t for t in TOP_TEAMS if t not in used_p1])`. -/
def opts_p1 (data : TournamentData) (m : MatchRec) : List String :=
  (TOP_TEAMS.filter (fun t => t ∉ used_excl1 data m)).mergeSort (fun a b => a ≤ b)

/-- `opts_p2`, symmetric to `opts_p1`. -/
def opts_p2 (data : TournamentData) (m : MatchRec) : List String :=
  (TOP_TEAMS.filter (fun t => t ∉ used_excl2 data m)).mergeSort (fun a b => a ≤ b)

/-- Blank one match's `team1` assignment: the match list in which the match
with the given id has its `team1` replaced by absent, all else unchanged
(the spec's description of `exclude`). -/
def blank_team1 (data : TournamentData) (mid : Nat) : TournamentData :=
  { data with matchList := data.matchList.map (fun x => if x.match_id = mid then { x with team1 := none } else x) }

/-- Blank one match's `team2` assignment, symmetric to `blank_team1`. -/
def blank_team2 (data : TournamentData) (mid : Nat) : TournamentData :=
  { data with matchList := data.matchList.map (fun x => if x.match_id = mid then { x with team2 := none } else x) }

/-- Home-side selectable options written the way the spec words them:
`roster − used_teams(matches, player, exclude=this_match) ∪ {currently assigned team, if any}`,
presented sorted ascending. -/
def opts_spec1 (data : TournamentData) (m : MatchRec) : List String :=
  ((TOP_TEAMS.toFinset \ used_excl1 data m) ∪
    (match m.team1 with
     | some t => if t ≠ "" then {t} else (∅ : Finset String)
     | none => ∅)).sort (fun a b => a ≤ b)

/-- A match is played iff both scores are present. -/
def playedM (m : MatchRec) : Prop := m.score1.isSome ∧ m.score2.isSome

instance (m : MatchRec) : Decidable (playedM m) := by
  unfold playedM; infer_instance

/-- Entry-wise map over a stats table, keeping every key in place. -/
def mapEntries (f : String → Stats → Stats) (d : StatsTable) : StatsTable :=
  d.map (fun kv => (kv.1, f kv.1 kv.2))

/-- Dictionary read `stats[p]` (as an `Option`, for absent keys). -/
def lookupSt (d : StatsTable) (p : String) : Option Stats :=
  (d.find? (fun kv => kv.1 = p)).map (fun kv => kv.2)

/-- Snapshot whose match references players absent from the players list. -/
def exOrphan : TournamentData :=
  { players := [], matchList := [{ week := 1, match_id := 1, p1 := "A", p2 := "B", score1 := some 2, score2 := some 1 }] }

/-- Snapshot with one participant declared and one missing. -/
def exHalf : TournamentData :=
  { players := ["A"], matchList := [{ week := 1, match_id := 1, p1 := "A", p2 := "B", score1 := some 2, score2 := some 1 }] }

/-- The spec's worked example: players A and B, one match A 2-1 B. -/
def exAB : TournamentData :=
  { players := ["A", "B"], matchList := [{ week := 1, match_id := 1, p1 := "A", p2 := "B", score1 := some 2, score2 := some 1 }] }

/-- A match that assigns team `X` to player `P` twice (violating the
one-team-per-player invariant), used to probe the exclusion logic. -/
def exDupData : TournamentData :=
  { players := ["P", "Q", "R"]
    matchList := [{ week := 1, match_id := 1, p1 := "P", p2 := "Q", team1 := some "X" },
                  { week := 2, match_id := 2, p1 := "P", p2 := "R", team1 := some "X" }] }

/-- The second of the duplicated assignments in `exDupData`. -/
def exDupM : MatchRec :=
  { week := 2, match_id := 2, p1 := "P", p2 := "R", team1 := some "X" }

/-- A match whose currently assigned team is not a roster entry. -/
def exOffRosterData : TournamentData :=
  { players := ["P", "Q"]
    matchList := [{ week := 1, match_id := 1, p1 := "P", p2 := "Q", team1 := some "ZZZ" }] }

/-- The single match of `exOffRosterData`. -/
def exOffRosterM : MatchRec :=
  { week := 1, match_id := 1, p1 := "P", p2 := "Q", team1 := some "ZZZ" }

/-- A clean snapshot for exercising the exclusion equivalence: `P` uses
`Arsenal` in match 1, match 2 is still unassigned. -/
def exCleanData : TournamentData :=
  { players := ["P", "Q", "R"]
    matchList := [{ week := 1, match_id := 1, p1 := "P", p2 := "Q", team1 := some "Arsenal", team2 := some "Ajax" },
                  { week := 2, match_id := 2, p1 := "P", p2 := "R" }] }

/-- Match 1 of `exCleanData`. -/
def exCleanM : MatchRec :=
  { week := 1, match_id := 1, p1 := "P", p2 := "Q", team1 := some "Arsenal", team2 := some "Ajax" }

/-- Match 2 of `exCleanData` (no team assigned yet). -/
def exCleanM2 : MatchRec :=
  { week := 2, match_id := 2, p1 := "P", p2 := "R" }

/-- The match of `exAB`, on its own for witnesses. -/
def exABm : MatchRec :=
  { week := 1, match_id := 1, p1 := "A", p2 := "B", score1 := some 2, score2 := some 1 }

/-- Two unplayed matches (one score missing each way) used to witness that
unplayed matches contribute nothing. -/
def exUnplayed : List MatchRec :=
  [{ week := 2, match_id := 2, p1 := "A", p2 := "B", score1 := some 4 },
   { week := 3, match_id := 3, p1 := "B", p2 := "A", score2 := some 1 }]

theorem usedStep_eq (p : String) (u : Finset String) (m : MatchRec) :
    usedStep p u m = u ∪ matchContrib p m := by
  ext x
  cases h1 : m.team1 <;> cases h2 : m.team2 <;>
    simp only [usedStep, matchContrib, h1, h2] <;>
    (try split_ifs) <;>
    simp <;> tauto

theorem mem_foldl_usedStep (p : String) (ms : List MatchRec) :
    ∀ (u : Finset String) (x : String),
      x ∈ ms.foldl (usedStep p) u ↔ x ∈ u ∨ ∃ m ∈ ms, x ∈ matchContrib p m := by
  induction ms with
  | nil => intro u x; simp
  | cons m ms ih =>
    intro u x
    rw [List.foldl_cons, ih, usedStep_eq]
    simp only [Finset.mem_union, List.mem_cons]
    constructor
    · rintro (⟨h | h⟩ | ⟨m', hm', hx⟩)
      · exact Or.inl h
      · exact Or.inr ⟨m, Or.inl rfl, h⟩
      · exact Or.inr ⟨m', Or.inr hm', hx⟩
    · rintro (h | ⟨m', hm' | hm', hx⟩)
      · exact Or.inl (Or.inl h)
      · exact Or.inl (Or.inr (hm' ▸ hx))
      · exact Or.inr ⟨m', hm', hx⟩

theorem mem_get_used_teams (data : TournamentData) (p x : String) :
    x ∈ get_used_teams data p ↔ ∃ m ∈ data.matchList, x ∈ matchContrib p m := by
  rw [get_used_teams, mem_foldl_usedStep]; simp

theorem mem_matchContrib (p x : String) (m : MatchRec) :
    x ∈ matchContrib p m ↔
      (m.p1 = p ∧ m.team1 = some x ∧ x ≠ "") ∨ (m.p2 = p ∧ m.team2 = some x ∧ x ≠ "") := by
  cases h1 : m.team1 <;> cases h2 : m.team2 <;>
    simp only [matchContrib, h1, h2] <;>
    (try split_ifs) <;>
    aesop

theorem empty_not_mem_used (data : TournamentData) (p : String) :
    "" ∉ get_used_teams data p := by
  rw [mem_get_used_teams]
  rintro ⟨m, hm, hc⟩
  rw [mem_matchContrib] at hc
  tauto

theorem mapEntries_id (d : StatsTable) : mapEntries (fun _ v => v) d = d := by
  simp [mapEntries]

theorem mapEntries_comp (f g : String → Stats → Stats) (d : StatsTable) :
    mapEntries g (mapEntries f d) = mapEntries (fun k v => g k (f k v)) d := by
  simp [mapEntries, List.map_map]

theorem updSt_as_mapEntries (d : StatsTable) (p : String) (f : Stats → Stats) :
    updSt d p f = mapEntries (fun k v => if k = p then f v else v) d := by
  unfold updSt mapEntries
  refine List.map_congr_left fun kv _ => ?_
  by_cases h : kv.1 = p <;> simp [h]

theorem containsKey_iff (d : StatsTable) (p : String) :
    containsKey d p = true ↔ p ∈ d.map Prod.fst := by
  simp [containsKey, List.any_eq_true, List.mem_map]

theorem updSt_not_contains (d : StatsTable) (p : String) (f : Stats → Stats)
    (h : ¬ containsKey d p = true) : updSt d p f = d := by
  have h' : ∀ kv ∈ d, kv.1 ≠ p := by
    intro kv hkv he
    refine h ?_
    simp only [containsKey, List.any_eq_true, decide_eq_true_eq]
    exact ⟨kv, hkv, he⟩
  unfold updSt
  have hcong : ∀ kv ∈ d, (if kv.1 = p then (kv.1, f kv.2) else kv) = id kv := by
    intro kv hkv; simp [if_neg (h' kv hkv)]
  rw [List.map_congr_left hcong, List.map_id]

theorem ite_containsKey_updSt (d : StatsTable) (p : String) (f : Stats → Stats) :
    (if containsKey d p then updSt d p f else d) = updSt d p f := by
  by_cases h : containsKey d p = true
  · rw [if_pos h]
  · rw [if_neg h, updSt_not_contains d p f h]

theorem keys_mapEntries (f : String → Stats → Stats) (d : StatsTable) :
    (mapEntries f d).map Prod.fst = d.map Prod.fst := by
  simp [mapEntries, List.map_map, Function.comp]

theorem containsKey_mapEntries (f : String → Stats → Stats) (d : StatsTable) (p : String) :
    containsKey (mapEntries f d) p = containsKey d p := by
  unfold containsKey mapEntries
  rw [List.any_map]
  rfl

theorem matchEffect_unplayed (m : MatchRec) (h : m.score1 = none ∨ m.score2 = none) :
    matchEffect m = fun _ st => st := by
  funext p st
  rcases h with h | h
  · cases h2 : m.score2 <;> simp [matchEffect, h, h2]
  · cases h1 : m.score1 <;> simp [matchEffect, h, h1]

theorem lookupSt_mapEntries (f : String → Stats → Stats) (d : StatsTable) (p : String) :
    lookupSt (mapEntries f d) p = (lookupSt d p).map (f p) := by
  induction d with
  | nil => rfl
  | cons kv rest ih =>
    by_cases h : kv.1 = p
    · subst h
      simp [lookupSt, mapEntries, List.find?_cons_of_pos]
    · simpa [lookupSt, mapEntries, List.find?_cons_of_neg, h] using ih

theorem applyMatch_eq_map (d : StatsTable) (m : MatchRec) :
    applyMatch d m = mapEntries (matchEffect m) d := by
  cases h1 : m.score1 with
  | none =>
    have ha : applyMatch d m = d := by
      cases h2 : m.score2 <;> simp [applyMatch, h1, h2]
    rw [ha, matchEffect_unplayed m (Or.inl h1), mapEntries_id]
  | some s1 =>
    cases h2 : m.score2 with
    | none =>
      have ha : applyMatch d m = d := by simp [applyMatch, h1, h2]
      rw [ha, matchEffect_unplayed m (Or.inr h2), mapEntries_id]
    | some s2 =>
      simp only [applyMatch, matchEffect, h1, h2, ite_containsKey_updSt]
      rcases Nat.lt_trichotomy s2 s1 with h | h | h
      · have hgt : s1 > s2 := h
        have hlt : ¬ s2 > s1 := by omega
        simp only [if_pos hgt, if_neg hlt, updSt_as_mapEntries, mapEntries_comp]
        unfold mapEntries
        refine List.map_congr_left fun kv _ => ?_
        by_cases e1 : kv.1 = m.p1 <;> by_cases e2 : kv.1 = m.p2 <;>
          simp [matchEffect, h1, h2, e1, e2, hgt, hlt]
      · have hgt : ¬ s1 > s2 := by omega
        have hlt : ¬ s2 > s1 := by omega
        simp only [if_neg hgt, if_neg hlt, updSt_as_mapEntries, mapEntries_comp]
        unfold mapEntries
        refine List.map_congr_left fun kv _ => ?_
        by_cases e1 : kv.1 = m.p1 <;> by_cases e2 : kv.1 = m.p2 <;>
          simp [matchEffect, h1, h2, e1, e2, hgt, hlt]
      · have hgt : ¬ s1 > s2 := by omega
        have hlt : s2 > s1 := h
        simp only [if_neg hgt, if_pos hlt, updSt_as_mapEntries, mapEntries_comp]
        unfold mapEntries
        refine List.map_congr_left fun kv _ => ?_
        by_cases e1 : kv.1 = m.p1 <;> by_cases e2 : kv.1 = m.p2 <;>
          simp [matchEffect, h1, h2, e1, e2, hgt, hlt]

theorem applyMatch_unplayed (d : StatsTable) (m : MatchRec)
    (h : m.score1 = none ∨ m.score2 = none) : applyMatch d m = d := by
  rw [applyMatch_eq_map, matchEffect_unplayed m h, mapEntries_id]

theorem keys_applyMatch (d : StatsTable) (m : MatchRec) :
    (applyMatch d m).map Prod.fst = d.map Prod.fst := by
  rw [applyMatch_eq_map, keys_mapEntries]

theorem keys_foldl_applyMatch (ms : List MatchRec) :
    ∀ d : StatsTable, (ms.foldl applyMatch d).map Prod.fst = d.map Prod.fst := by
  induction ms with
  | nil => intro d; rfl
  | cons m ms ih => intro d; rw [List.foldl_cons, ih, keys_applyMatch]

theorem lookupSt_applyMatch (d : StatsTable) (m : MatchRec) (p : String) :
    lookupSt (applyMatch d m) p = (lookupSt d p).map (matchEffect m p) := by
  rw [applyMatch_eq_map, lookupSt_mapEntries]

theorem keys_foldl_dictInit (ps : List String) :
    ∀ acc : StatsTable, (ps.foldl dictInit acc).map Prod.fst
      = acc.map Prod.fst ++ dedupFrom (acc.map Prod.fst) ps := by
  induction ps with
  | nil => intro acc; simp [dedupFrom]
  | cons p ps ih =>
    intro acc
    rw [List.foldl_cons]
    by_cases h : containsKey acc p = true
    · have hp : p ∈ acc.map Prod.fst := (containsKey_iff acc p).mp h
      rw [dictInit, if_pos h, ih]
      simp [dedupFrom, hp]
    · have hp : p ∉ acc.map Prod.fst := fun hmem => h ((containsKey_iff acc p).mpr hmem)
      rw [dictInit, if_neg h, ih]
      simp only [List.map_append, List.map_cons, List.map_nil, dedupFrom, if_neg hp]
      rw [List.append_assoc]
      rfl

theorem keys_mkInit (ps : List String) :
    (mkInit ps).map Prod.fst = dedupFrom [] ps := by
  simpa [mkInit] using keys_foldl_dictInit ps []

theorem mem_dedupFrom (ps : List String) :
    ∀ (seen : List String) (x : String),
      x ∈ dedupFrom seen ps ↔ x ∈ ps ∧ x ∉ seen := by
  induction ps with
  | nil => intro seen x; simp [dedupFrom]
  | cons p ps ih =>
    intro seen x
    by_cases h : p ∈ seen
    · rw [dedupFrom, if_pos h, ih]
      simp only [List.mem_cons]
      constructor
      · rintro ⟨hx, hs⟩; exact ⟨Or.inr hx, hs⟩
      · rintro ⟨hx | hx, hs⟩
        · exact absurd (hx ▸ h) hs
        · exact ⟨hx, hs⟩
    · rw [dedupFrom, if_neg h]
      simp only [List.mem_cons, ih, List.mem_append, List.mem_singleton]
      constructor
      · rintro (rfl | ⟨hx, hs⟩)
        · exact ⟨Or.inl rfl, h⟩
        · refine ⟨Or.inr hx, fun hmem => hs ?_⟩
          exact Or.inl hmem
      · rintro ⟨rfl | hx, hs⟩
        · exact Or.inl rfl
        · by_cases hxp : x = p
          · exact Or.inl hxp
          · refine Or.inr ⟨hx, ?_⟩
            rintro (hmem | hmem | hmem)
            · exact hs hmem
            · exact hxp hmem
            · simp at hmem

theorem nodup_dedupFrom (ps : List String) :
    ∀ seen : List String, (dedupFrom seen ps).Nodup := by
  induction ps with
  | nil => intro seen; simp [dedupFrom]
  | cons p ps ih =>
    intro seen
    by_cases h : p ∈ seen
    · rw [dedupFrom, if_pos h]; exact ih seen
    · rw [dedupFrom, if_neg h]
      refine List.nodup_cons.mpr ⟨?_, ih (seen ++ [p])⟩
      rw [mem_dedupFrom]
      rintro ⟨_, hs⟩
      exact hs (by simp)

theorem nodup_keys_mkInit (ps : List String) :
    ((mkInit ps).map Prod.fst).Nodup := by
  rw [keys_mkInit]; exact nodup_dedupFrom ps []

theorem mem_keys_mkInit (ps : List String) (p : String) :
    p ∈ (mkInit ps).map Prod.fst ↔ p ∈ ps := by
  rw [keys_mkInit, mem_dedupFrom]; simp

theorem mkInit_entries (ps : List String) :
    ∀ kv ∈ mkInit ps, kv.2 = initStats := by
  have hgen : ∀ (qs : List String) (acc : StatsTable),
      (∀ kv ∈ acc, kv.2 = initStats) → ∀ kv ∈ qs.foldl dictInit acc, kv.2 = initStats := by
    intro qs
    induction qs with
    | nil => intro acc hacc; exact hacc
    | cons q qs ih =>
      intro acc hacc
      rw [List.foldl_cons]
      refine ih (dictInit acc q) ?_
      intro kv hkv
      rw [dictInit] at hkv
      split at hkv
      · exact hacc kv hkv
      · rcases List.mem_append.mp hkv with hkv | hkv
        · exact hacc kv hkv
        · simp only [List.mem_singleton] at hkv
          rw [hkv]
  intro kv hkv
  exact hgen ps [] (by simp) kv hkv

theorem foldl_preserve {P : Stats → Prop}
    (hstep : ∀ (m : MatchRec) (p : String) (st : Stats), P st → P (matchEffect m p st)) :
    ∀ (ms : List MatchRec) (d : StatsTable),
      (∀ kv ∈ d, P kv.2) → ∀ kv ∈ ms.foldl applyMatch d, P kv.2 := by
  intro ms
  induction ms with
  | nil => intro d hd; exact hd
  | cons m ms ih =>
    intro d hd
    rw [List.foldl_cons]
    refine ih (applyMatch d m) ?_
    intro kv hkv
    rw [applyMatch_eq_map, mapEntries] at hkv
    rcases List.mem_map.mp hkv with ⟨kv', hkv', rfl⟩
    exact hstep m kv'.1 kv'.2 (hd kv' hkv')

theorem matchEffect_GF (m : MatchRec) (s1 s2 : Nat) (h1 : m.score1 = some s1)
    (h2 : m.score2 = some s2) (p : String) (st : Stats) :
    (matchEffect m p st).GF
      = st.GF + ((if p = m.p1 then s1 else 0) + (if p = m.p2 then s2 else 0)) := by
  by_cases e1 : p = m.p1 <;> by_cases e2 : p = m.p2 <;>
    simp [matchEffect, h1, h2, goalUpd, winUpd, lossUpd, drawUpd, e1, e2,
      apply_ite Stats.GF] <;>
    split_ifs <;> omega

theorem matchEffect_GA (m : MatchRec) (s1 s2 : Nat) (h1 : m.score1 = some s1)
    (h2 : m.score2 = some s2) (p : String) (st : Stats) :
    (matchEffect m p st).GA
      = st.GA + ((if p = m.p1 then s2 else 0) + (if p = m.p2 then s1 else 0)) := by
  by_cases e1 : p = m.p1 <;> by_cases e2 : p = m.p2 <;>
    simp [matchEffect, h1, h2, goalUpd, winUpd, lossUpd, drawUpd, e1, e2,
      apply_ite Stats.GA] <;>
    split_ifs <;> omega

theorem matchEffect_pts_inv (m : MatchRec) (p : String) (st : Stats)
    (h : st.Pts = 3 * st.W + st.D) :
    (matchEffect m p st).Pts = 3 * (matchEffect m p st).W + (matchEffect m p st).D := by
  cases hs1 : m.score1 with
  | none => cases hs2 : m.score2 <;> simpa [matchEffect, hs1, hs2] using h
  | some s1 =>
    cases hs2 : m.score2 with
    | none => simpa [matchEffect, hs1, hs2] using h
    | some s2 =>
      by_cases e1 : p = m.p1 <;> by_cases e2 : p = m.p2 <;>
        simp [matchEffect, hs1, hs2, goalUpd, winUpd, lossUpd, drawUpd, e1, e2,
          apply_ite Stats.Pts, apply_ite Stats.W, apply_ite Stats.D] <;>
        (try split_ifs) <;> omega

theorem matchEffect_gp_inv (m : MatchRec) (p : String) (st : Stats)
    (h : st.GP = st.W + st.D + st.L) :
    (matchEffect m p st).GP
      = (matchEffect m p st).W + (matchEffect m p st).D + (matchEffect m p st).L := by
  cases hs1 : m.score1 with
  | none => cases hs2 : m.score2 <;> simpa [matchEffect, hs1, hs2] using h
  | some s1 =>
    cases hs2 : m.score2 with
    | none => simpa [matchEffect, hs1, hs2] using h
    | some s2 =>
      by_cases e1 : p = m.p1 <;> by_cases e2 : p = m.p2 <;>
        simp [matchEffect, hs1, hs2, goalUpd, winUpd, lossUpd, drawUpd, e1, e2,
          apply_ite Stats.GP, apply_ite Stats.W, apply_ite Stats.D, apply_ite Stats.L] <;>
        (try split_ifs) <;> omega

theorem matchEffect_p1_eq (m : MatchRec) (s1 s2 : Nat) (h1 : m.score1 = some s1)
    (h2 : m.score2 = some s2) (hne : m.p1 ≠ m.p2) (st : Stats) :
    matchEffect m m.p1 st =
      { st with
          GP := st.GP + 1
          GF := st.GF + s1
          GA := st.GA + s2
          GD := st.GD + ((s1 : Int) - (s2 : Int))
          W := st.W + (if s1 > s2 then 1 else 0)
          D := st.D + (if s1 = s2 then 1 else 0)
          L := st.L + (if s2 > s1 then 1 else 0)
          Pts := st.Pts + (if s1 > s2 then 3 else if s1 = s2 then 1 else 0) } := by
  obtain ⟨gp, w, dr, l, gf, ga, gd, pts⟩ := st
  have e2 : ¬ (m.p1 = m.p2) := hne
  simp only [matchEffect, h1, h2, goalUpd, winUpd, lossUpd, drawUpd, e2, ite_true, ite_false,
    if_true, if_false, eq_self_iff_true, if_pos, if_neg, not_false_iff]
  split_ifs <;> simp [Stats.mk.injEq] <;> omega

theorem matchEffect_p2_eq (m : MatchRec) (s1 s2 : Nat) (h1 : m.score1 = some s1)
    (h2 : m.score2 = some s2) (hne : m.p1 ≠ m.p2) (st : Stats) :
    matchEffect m m.p2 st =
      { st with
          GP := st.GP + 1
          GF := st.GF + s2
          GA := st.GA + s1
          GD := st.GD + ((s2 : Int) - (s1 : Int))
          W := st.W + (if s2 > s1 then 1 else 0)
          D := st.D + (if s1 = s2 then 1 else 0)
          L := st.L + (if s1 > s2 then 1 else 0)
          Pts := st.Pts + (if s2 > s1 then 3 else if s1 = s2 then 1 else 0) } := by
  obtain ⟨gp, w, dr, l, gf, ga, gd, pts⟩ := st
  have e1 : ¬ (m.p2 = m.p1) := fun h => hne h.symm
  simp only [matchEffect, h1, h2, goalUpd, winUpd, lossUpd, drawUpd, e1, ite_true, ite_false,
    if_true, if_false, eq_self_iff_true, if_pos, if_neg, not_false_iff]
  split_ifs <;> simp [Stats.mk.injEq] <;> omega

theorem sum_map_add {α : Type} (l : List α) (f g : α → Nat) :
    (l.map (fun x => f x + g x)).sum = (l.map f).sum + (l.map g).sum := by
  induction l with
  | nil => rfl
  | cons a l ih => simp [ih]; omega

theorem sum_ite_key (d : StatsTable) (q : String) (c : Nat) :
    (d.map (fun kv => if kv.1 = q then c else 0)).sum = c * (d.map Prod.fst).count q := by
  induction d with
  | nil => simp
  | cons kv rest ih =>
    by_cases h : kv.1 = q <;>
      (simp [h, ih, List.count_cons, Nat.mul_succ]; try omega)

theorem sumGF_applyMatch (d : StatsTable) (m : MatchRec) (s1 s2 : Nat)
    (h1 : m.score1 = some s1) (h2 : m.score2 = some s2) :
    sumGF (applyMatch d m)
      = sumGF d + (s1 * (d.map Prod.fst).count m.p1 + s2 * (d.map Prod.fst).count m.p2) := by
  rw [applyMatch_eq_map]
  unfold sumGF mapEntries
  rw [List.map_map]
  have hcong : ∀ kv ∈ d, ((fun kv : String × Stats => kv.2.GF) ∘
        (fun kv : String × Stats => (kv.1, matchEffect m kv.1 kv.2))) kv
      = (fun kv : String × Stats =>
          kv.2.GF + ((if kv.1 = m.p1 then s1 else 0) + (if kv.1 = m.p2 then s2 else 0))) kv := by
    intro kv _
    simp only [Function.comp_apply]
    exact matchEffect_GF m s1 s2 h1 h2 kv.1 kv.2
  rw [List.map_congr_left hcong, sum_map_add, sum_map_add, sum_ite_key, sum_ite_key]

theorem sumGA_applyMatch (d : StatsTable) (m : MatchRec) (s1 s2 : Nat)
    (h1 : m.score1 = some s1) (h2 : m.score2 = some s2) :
    sumGA (applyMatch d m)
      = sumGA d + (s2 * (d.map Prod.fst).count m.p1 + s1 * (d.map Prod.fst).count m.p2) := by
  rw [applyMatch_eq_map]
  unfold sumGA mapEntries
  rw [List.map_map]
  have hcong : ∀ kv ∈ d, ((fun kv : String × Stats => kv.2.GA) ∘
        (fun kv : String × Stats => (kv.1, matchEffect m kv.1 kv.2))) kv
      = (fun kv : String × Stats =>
          kv.2.GA + ((if kv.1 = m.p1 then s2 else 0) + (if kv.1 = m.p2 then s1 else 0))) kv := by
    intro kv _
    simp only [Function.comp_apply]
    exact matchEffect_GA m s1 s2 h1 h2 kv.1 kv.2
  rw [List.map_congr_left hcong, sum_map_add, sum_map_add, sum_ite_key, sum_ite_key]

theorem sum_conservation (ms : List MatchRec) :
    ∀ d : StatsTable, (d.map Prod.fst).Nodup →
      (∀ m ∈ ms, ∀ s1 s2, m.score1 = some s1 → m.score2 = some s2 →
        m.p1 ∈ d.map Prod.fst ∧ m.p2 ∈ d.map Prod.fst) →
      sumGF d = sumGA d →
      sumGF (ms.foldl applyMatch d) = sumGA (ms.foldl applyMatch d) := by
  induction ms with
  | nil => intro d _ _ h; exact h
  | cons m ms ih =>
    intro d hnd hmem heq
    rw [List.foldl_cons]
    refine ih (applyMatch d m) ?_ ?_ ?_
    · rw [keys_applyMatch]; exact hnd
    · intro m' hm' s1 s2 hs1 hs2
      rw [keys_applyMatch]
      exact hmem m' (List.mem_cons_of_mem _ hm') s1 s2 hs1 hs2
    · cases hs1 : m.score1 with
      | none => rw [applyMatch_unplayed d m (Or.inl hs1)]; exact heq
      | some s1 =>
        cases hs2 : m.score2 with
        | none => rw [applyMatch_unplayed d m (Or.inr hs2)]; exact heq
        | some s2 =>
          obtain ⟨hp1, hp2⟩ := hmem m (List.mem_cons_self _ _) s1 s2 hs1 hs2
          rw [sumGF_applyMatch d m s1 s2 hs1 hs2, sumGA_applyMatch d m s1 s2 hs1 hs2,
            List.count_eq_one_of_mem hnd hp1, List.count_eq_one_of_mem hnd hp2, heq]
          omega

theorem sumGF_mkInit (ps : List String) : sumGF (mkInit ps) = 0 := by
  refine List.sum_eq_zero ?_
  intro x hx
  rcases List.mem_map.mp hx with ⟨kv, hkv, rfl⟩
  rw [mkInit_entries ps kv hkv]
  rfl

theorem sumGA_mkInit (ps : List String) : sumGA (mkInit ps) = 0 := by
  refine List.sum_eq_zero ?_
  intro x hx
  rcases List.mem_map.mp hx with ⟨kv, hkv, rfl⟩
  rw [mkInit_entries ps kv hkv]
  rfl

theorem sumGF_mergeSort (l : StatsTable) (le : String × Stats → String × Stats → Bool) :
    sumGF (l.mergeSort le) = sumGF l :=
  List.Perm.sum_eq ((List.mergeSort_perm l le).map _)

theorem sumGA_mergeSort (l : StatsTable) (le : String × Stats → String × Stats → Bool) :
    sumGA (l.mergeSort le) = sumGA l :=
  List.Perm.sum_eq ((List.mergeSort_perm l le).map _)

theorem keyLexLe_refl (a : Nat × Int × Nat) : keyLexLe a a :=
  Or.inr ⟨rfl, Or.inr ⟨rfl, le_refl _⟩⟩

theorem keyLexLe_trans (a b c : Nat × Int × Nat) :
    keyLexLe a b → keyLexLe b c → keyLexLe a c := by
  obtain ⟨a1, a2, a3⟩ := a
  obtain ⟨b1, b2, b3⟩ := b
  obtain ⟨c1, c2, c3⟩ := c
  simp only [keyLexLe]
  omega

theorem keyLexLe_total (a b : Nat × Int × Nat) : keyLexLe a b ∨ keyLexLe b a := by
  obtain ⟨a1, a2, a3⟩ := a
  obtain ⟨b1, b2, b3⟩ := b
  simp only [keyLexLe]
  omega

theorem rowLe_trans : ∀ (a b c : String × Stats),
    rowLe a b = true → rowLe b c = true → rowLe a c = true := by
  intro a b c h1 h2
  simp only [rowLe, decide_eq_true_eq] at h1 h2 ⊢
  exact keyLexLe_trans _ _ _ h2 h1

theorem rowLe_total : ∀ (a b : String × Stats), (rowLe a b || rowLe b a) = true := by
  intro a b
  simp only [rowLe, Bool.or_eq_true, decide_eq_true_eq]
  exact keyLexLe_total _ _

theorem mergeSort_filter_key (l : StatsTable) (k : Nat × Int × Nat) :
    (l.mergeSort rowLe).filter (fun r => statKey r.2 = k)
      = l.filter (fun r => statKey r.2 = k) := by
  have hpair : (l.filter (fun r => statKey r.2 = k)).Pairwise (fun a b => rowLe a b = true) := by
    refine List.pairwise_of_forall_mem_list ?_
    intro a ha b hb
    have hqa := (List.mem_filter.mp ha).2
    have hqb := (List.mem_filter.mp hb).2
    simp only [decide_eq_true_eq] at hqa hqb
    simp only [rowLe, decide_eq_true_eq, hqa, hqb]
    exact keyLexLe_refl k
  have hsub : List.Sublist (l.filter (fun r => statKey r.2 = k)) (l.mergeSort rowLe) :=
    List.sublist_mergeSort rowLe_trans rowLe_total hpair (List.filter_sublist l)
  have hself : (l.filter (fun r => statKey r.2 = k)).filter (fun r => statKey r.2 = k)
      = l.filter (fun r => statKey r.2 = k) :=
    List.filter_eq_self.mpr (fun a ha => (List.mem_filter.mp ha).2)
  have hsub2 : List.Sublist (l.filter (fun r => statKey r.2 = k))
      ((l.mergeSort rowLe).filter (fun r => statKey r.2 = k)) := by
    have := List.Sublist.filter (fun r => statKey r.2 = k) hsub
    rwa [hself] at this
  have hperm := List.Perm.filter (fun r => statKey r.2 = k) (List.mergeSort_perm l rowLe)
  exact (List.Sublist.eq_of_length hsub2 hperm.length_eq.symm).symm

theorem leaderboard_sorted (data : TournamentData) :
    (calculate_leaderboard data).Pairwise
      (fun a b => keyLexLe (statKey b.2) (statKey a.2)) := by
  have h := List.sorted_mergeSort rowLe_trans rowLe_total (stats_dict data)
  refine List.Pairwise.imp ?_ h
  intro a b hab
  simpa only [rowLe, decide_eq_true_eq] using hab

theorem leaderboard_ranks (data : TournamentData) :
    (leaderboard_rows data).map Prod.fst
      = List.range' 1 (calculate_leaderboard data).length := by
  unfold leaderboard_rows
  rw [List.map_map, List.range'_eq_map_range]
  have h1 : (Prod.fst ∘ fun x : Nat × (String × Stats) => (x.1 + 1, x.2))
      = ((fun i => i + 1) ∘ Prod.fst) := rfl
  rw [h1, ← List.map_map, List.enum_map_fst]
  refine List.map_congr_left fun i _ => ?_
  omega

theorem mem_keys_stats_dict (data : TournamentData) (p : String) :
    p ∈ (stats_dict data).map Prod.fst ↔ p ∈ data.players := by
  unfold stats_dict
  rw [keys_foldl_applyMatch, mem_keys_mkInit]

theorem exists_row_iff (data : TournamentData) (p : String) :
    (∃ st, (p, st) ∈ calculate_leaderboard data) ↔ p ∈ data.players := by
  unfold calculate_leaderboard
  constructor
  · rintro ⟨st, hst⟩
    have hmem : (p, st) ∈ stats_dict data := List.mem_mergeSort.mp hst
    have hk : p ∈ (stats_dict data).map Prod.fst := List.mem_map.mpr ⟨(p, st), hmem, rfl⟩
    exact (mem_keys_stats_dict data p).mp hk
  · intro hp
    have hk : p ∈ (stats_dict data).map Prod.fst := (mem_keys_stats_dict data p).mpr hp
    rcases List.mem_map.mp hk with ⟨⟨k, v⟩, hkv, hfst⟩
    cases hfst
    exact ⟨v, List.mem_mergeSort.mpr hkv⟩

theorem matchContrib_blank1 (x : MatchRec) (p t' : String) :
    t' ∈ matchContrib p { x with team1 := none }
      ↔ (x.p2 = p ∧ x.team2 = some t' ∧ t' ≠ "") := by
  rw [mem_matchContrib]
  simp

theorem matchContrib_blank2 (x : MatchRec) (p t' : String) :
    t' ∈ matchContrib p { x with team2 := none }
      ↔ (x.p1 = p ∧ x.team1 = some t' ∧ t' ≠ "") := by
  rw [mem_matchContrib]
  simp

theorem mem_used_blank1 (data : TournamentData) (mid : Nat) (p t' : String) :
    t' ∈ get_used_teams (blank_team1 data mid) p ↔
      ∃ x ∈ data.matchList,
        (¬ x.match_id = mid ∧ t' ∈ matchContrib p x) ∨
        (x.match_id = mid ∧ x.p2 = p ∧ x.team2 = some t' ∧ t' ≠ "") := by
  rw [mem_get_used_teams]
  unfold blank_team1
  constructor
  · rintro ⟨x', hx', hc⟩
    rcases List.mem_map.mp hx' with ⟨x, hx, rfl⟩
    by_cases hxm : x.match_id = mid
    · rw [if_pos hxm] at hc
      rw [matchContrib_blank1] at hc
      exact ⟨x, hx, Or.inr ⟨hxm, hc⟩⟩
    · rw [if_neg hxm] at hc
      exact ⟨x, hx, Or.inl ⟨hxm, hc⟩⟩
  · rintro ⟨x, hx, h | h⟩
    · exact ⟨x, List.mem_map.mpr ⟨x, hx, if_neg h.1⟩, h.2⟩
    · refine ⟨{ x with team1 := none }, List.mem_map.mpr ⟨x, hx, if_pos h.1⟩, ?_⟩
      rw [matchContrib_blank1]
      exact ⟨h.2.1, h.2.2.1, h.2.2.2⟩

theorem mem_used_blank2 (data : TournamentData) (mid : Nat) (p t' : String) :
    t' ∈ get_used_teams (blank_team2 data mid) p ↔
      ∃ x ∈ data.matchList,
        (¬ x.match_id = mid ∧ t' ∈ matchContrib p x) ∨
        (x.match_id = mid ∧ x.p1 = p ∧ x.team1 = some t' ∧ t' ≠ "") := by
  rw [mem_get_used_teams]
  unfold blank_team2
  constructor
  · rintro ⟨x', hx', hc⟩
    rcases List.mem_map.mp hx' with ⟨x, hx, rfl⟩
    by_cases hxm : x.match_id = mid
    · rw [if_pos hxm] at hc
      rw [matchContrib_blank2] at hc
      exact ⟨x, hx, Or.inr ⟨hxm, hc⟩⟩
    · rw [if_neg hxm] at hc
      exact ⟨x, hx, Or.inl ⟨hxm, hc⟩⟩
  · rintro ⟨x, hx, h | h⟩
    · exact ⟨x, List.mem_map.mpr ⟨x, hx, if_neg h.1⟩, h.2⟩
    · refine ⟨{ x with team2 := none }, List.mem_map.mpr ⟨x, hx, if_pos h.1⟩, ?_⟩
      rw [matchContrib_blank2]
      exact ⟨h.2.1, h.2.2.1, h.2.2.2⟩

theorem self_mem_used1 (data : TournamentData) (m : MatchRec) (t : String)
    (h0 : m ∈ data.matchList) (hmt : m.team1 = some t) (htne : t ≠ "") :
    t ∈ get_used_teams data m.p1 := by
  rw [mem_get_used_teams]
  exact ⟨m, h0, (mem_matchContrib m.p1 t m).mpr (Or.inl ⟨rfl, hmt, htne⟩)⟩

theorem self_mem_used2 (data : TournamentData) (m : MatchRec) (t : String)
    (h0 : m ∈ data.matchList) (hmt : m.team2 = some t) (htne : t ≠ "") :
    t ∈ get_used_teams data m.p2 := by
  rw [mem_get_used_teams]
  exact ⟨m, h0, (mem_matchContrib m.p2 t m).mpr (Or.inr ⟨rfl, hmt, htne⟩)⟩

theorem used_excl1_eq_blank (data : TournamentData) (m : MatchRec)
    (h0 : m ∈ data.matchList)
    (hid : ∀ x ∈ data.matchList, x.match_id = m.match_id → x = m)
    (huniq : ∀ t, m.team1 = some t → t ≠ "" →
      ∀ x ∈ data.matchList,
        (x.p1 = m.p1 → x.team1 = some t → x = m) ∧ ¬(x.p2 = m.p1 ∧ x.team2 = some t)) :
    used_excl1 data m = get_used_teams (blank_team1 data m.match_id) m.p1 := by
  ext t'
  rw [mem_used_blank1]
  cases hmt : m.team1 with
  | none =>
    simp only [used_excl1, hmt]
    rw [mem_get_used_teams]
    constructor
    · rintro ⟨x, hx, hc⟩
      by_cases hxm : x.match_id = m.match_id
      · have hxe : x = m := hid x hx hxm
        subst hxe
        rcases (mem_matchContrib x.p1 t' x).mp hc with ⟨_, ht1, _⟩ | ⟨hp2, ht2, htne⟩
        · rw [hmt] at ht1; cases ht1
        · exact ⟨x, hx, Or.inr ⟨hxm, hp2, ht2, htne⟩⟩
      · exact ⟨x, hx, Or.inl ⟨hxm, hc⟩⟩
    · rintro ⟨x, hx, ⟨_, hc⟩ | ⟨_, hp2, ht2, htne⟩⟩
      · exact ⟨x, hx, hc⟩
      · exact ⟨x, hx, (mem_matchContrib m.p1 t' x).mpr (Or.inr ⟨hp2, ht2, htne⟩)⟩
  | some t =>
    by_cases htin : t ∈ get_used_teams data m.p1
    · have htne : t ≠ "" := by
        rintro rfl
        exact empty_not_mem_used data m.p1 htin
      have hu := huniq t hmt htne
      simp only [used_excl1, hmt, if_pos htin]
      rw [Finset.mem_erase]
      constructor
      · rintro ⟨hne', hin⟩
        rcases (mem_get_used_teams data m.p1 t').mp hin with ⟨x, hx, hc⟩
        by_cases hxm : x.match_id = m.match_id
        · have hxe : x = m := hid x hx hxm
          subst hxe
          rcases (mem_matchContrib x.p1 t' x).mp hc with ⟨_, ht1, _⟩ | ⟨hp2, ht2, htne'⟩
          · rw [hmt] at ht1
            exact absurd (Option.some_injective _ ht1.symm) hne'
          · exact ⟨x, hx, Or.inr ⟨hxm, hp2, ht2, htne'⟩⟩
        · exact ⟨x, hx, Or.inl ⟨hxm, hc⟩⟩
      · rintro ⟨x, hx, ⟨hxm, hc⟩ | ⟨hxm, hp2, ht2, htne'⟩⟩
        · refine ⟨?_, (mem_get_used_teams data m.p1 t').mpr ⟨x, hx, hc⟩⟩
          rintro rfl
          rcases (mem_matchContrib m.p1 t' x).mp hc with ⟨hp1, ht1, _⟩ | ⟨hp2, ht2, _⟩
          · exact hxm (((hu x hx).1 hp1 ht1) ▸ rfl)
          · exact (hu x hx).2 ⟨hp2, ht2⟩
        · refine ⟨?_, (mem_get_used_teams data m.p1 t').mpr
            ⟨x, hx, (mem_matchContrib m.p1 t' x).mpr (Or.inr ⟨hp2, ht2, htne'⟩)⟩⟩
          rintro rfl
          exact (hu x hx).2 ⟨hp2, ht2⟩
    · have hte : t = "" := by
        by_contra htne
        exact htin (self_mem_used1 data m t h0 hmt htne)
      subst hte
      simp only [used_excl1, hmt, if_neg htin]
      rw [mem_get_used_teams]
      constructor
      · rintro ⟨x, hx, hc⟩
        by_cases hxm : x.match_id = m.match_id
        · have hxe : x = m := hid x hx hxm
          subst hxe
          rcases (mem_matchContrib x.p1 t' x).mp hc with ⟨_, ht1, htne'⟩ | ⟨hp2, ht2, htne'⟩
          · rw [hmt] at ht1
            exact absurd (Option.some_injective _ ht1.symm) htne'
          · exact ⟨x, hx, Or.inr ⟨hxm, hp2, ht2, htne'⟩⟩
        · exact ⟨x, hx, Or.inl ⟨hxm, hc⟩⟩
      · rintro ⟨x, hx, ⟨_, hc⟩ | ⟨_, hp2, ht2, htne'⟩⟩
        · exact ⟨x, hx, hc⟩
        · exact ⟨x, hx, (mem_matchContrib m.p1 t' x).mpr (Or.inr ⟨hp2, ht2, htne'⟩)⟩

theorem used_excl2_eq_blank (data : TournamentData) (m : MatchRec)
    (h0 : m ∈ data.matchList)
    (hid : ∀ x ∈ data.matchList, x.match_id = m.match_id → x = m)
    (huniq : ∀ t, m.team2 = some t → t ≠ "" →
      ∀ x ∈ data.matchList,
        (x.p2 = m.p2 → x.team2 = some t → x = m) ∧ ¬(x.p1 = m.p2 ∧ x.team1 = some t)) :
    used_excl2 data m = get_used_teams (blank_team2 data m.match_id) m.p2 := by
  ext t'
  rw [mem_used_blank2]
  cases hmt : m.team2 with
  | none =>
    simp only [used_excl2, hmt]
    rw [mem_get_used_teams]
    constructor
    · rintro ⟨x, hx, hc⟩
      by_cases hxm : x.match_id = m.match_id
      · have hxe : x = m := hid x hx hxm
        subst hxe
        rcases (mem_matchContrib x.p2 t' x).mp hc with ⟨hp1, ht1, htne⟩ | ⟨_, ht2, _⟩
        · exact ⟨x, hx, Or.inr ⟨hxm, hp1, ht1, htne⟩⟩
        · rw [hmt] at ht2; cases ht2
      · exact ⟨x, hx, Or.inl ⟨hxm, hc⟩⟩
    · rintro ⟨x, hx, ⟨_, hc⟩ | ⟨_, hp1, ht1, htne⟩⟩
      · exact ⟨x, hx, hc⟩
      · exact ⟨x, hx, (mem_matchContrib m.p2 t' x).mpr (Or.inl ⟨hp1, ht1, htne⟩)⟩
  | some t =>
    by_cases htin : t ∈ get_used_teams data m.p2
    · have htne : t ≠ "" := by
        rintro rfl
        exact empty_not_mem_used data m.p2 htin
      have hu := huniq t hmt htne
      simp only [used_excl2, hmt, if_pos htin]
      rw [Finset.mem_erase]
      constructor
      · rintro ⟨hne', hin⟩
        rcases (mem_get_used_teams data m.p2 t').mp hin with ⟨x, hx, hc⟩
        by_cases hxm : x.match_id = m.match_id
        · have hxe : x = m := hid x hx hxm
          subst hxe
          rcases (mem_matchContrib x.p2 t' x).mp hc with ⟨hp1, ht1, htne'⟩ | ⟨_, ht2, _⟩
          · exact ⟨x, hx, Or.inr ⟨hxm, hp1, ht1, htne'⟩⟩
          · rw [hmt] at ht2
            exact absurd (Option.some_injective _ ht2.symm) hne'
        · exact ⟨x, hx, Or.inl ⟨hxm, hc⟩⟩
      · rintro ⟨x, hx, ⟨hxm, hc⟩ | ⟨hxm, hp1, ht1, htne'⟩⟩
        · refine ⟨?_, (mem_get_used_teams data m.p2 t').mpr ⟨x, hx, hc⟩⟩
          rintro rfl
          rcases (mem_matchContrib m.p2 t' x).mp hc with ⟨hp1, ht1, _⟩ | ⟨hp2, ht2, _⟩
          · exact (hu x hx).2 ⟨hp1, ht1⟩
          · exact hxm (((hu x hx).1 hp2 ht2) ▸ rfl)
        · refine ⟨?_, (mem_get_used_teams data m.p2 t').mpr
            ⟨x, hx, (mem_matchContrib m.p2 t' x).mpr (Or.inl ⟨hp1, ht1, htne'⟩)⟩⟩
          rintro rfl
          exact (hu x hx).2 ⟨hp1, ht1⟩
    · have hte : t = "" := by
        by_contra htne
        exact htin (self_mem_used2 data m t h0 hmt htne)
      subst hte
      simp only [used_excl2, hmt, if_neg htin]
      rw [mem_get_used_teams]
      constructor
      · rintro ⟨x, hx, hc⟩
        by_cases hxm : x.match_id = m.match_id
        · have hxe : x = m := hid x hx hxm
          subst hxe
          rcases (mem_matchContrib x.p2 t' x).mp hc with ⟨hp1, ht1, htne'⟩ | ⟨_, ht2, htne'⟩
          · exact ⟨x, hx, Or.inr ⟨hxm, hp1, ht1, htne'⟩⟩
          · rw [hmt] at ht2
            exact absurd (Option.some_injective _ ht2.symm) htne'
        · exact ⟨x, hx, Or.inl ⟨hxm, hc⟩⟩
      · rintro ⟨x, hx, ⟨_, hc⟩ | ⟨_, hp1, ht1, htne'⟩⟩
        · exact ⟨x, hx, hc⟩
        · exact ⟨x, hx, (mem_matchContrib m.p2 t' x).mpr (Or.inl ⟨hp1, ht1, htne'⟩)⟩

theorem current_not_in_excl1 (data : TournamentData) (m : MatchRec) (t : String)
    (hmt : m.team1 = some t) : t ∉ used_excl1 data m := by
  simp only [used_excl1, hmt]
  by_cases h : t ∈ get_used_teams data m.p1
  · rw [if_pos h]; exact Finset.not_mem_erase t _
  · rw [if_neg h]; exact h

theorem current_not_in_excl2 (data : TournamentData) (m : MatchRec) (t : String)
    (hmt : m.team2 = some t) : t ∉ used_excl2 data m := by
  simp only [used_excl2, hmt]
  by_cases h : t ∈ get_used_teams data m.p2
  · rw [if_pos h]; exact Finset.not_mem_erase t _
  · rw [if_neg h]; exact h

theorem mem_opts_p1 (data : TournamentData) (m : MatchRec) (t : String) :
    t ∈ opts_p1 data m ↔ t ∈ TOP_TEAMS ∧ t ∉ used_excl1 data m := by
  unfold opts_p1
  rw [List.mem_mergeSort, List.mem_filter]
  simp

theorem mem_opts_p2 (data : TournamentData) (m : MatchRec) (t : String) :
    t ∈ opts_p2 data m ↔ t ∈ TOP_TEAMS ∧ t ∉ used_excl2 data m := by
  unfold opts_p2
  rw [List.mem_mergeSort, List.mem_filter]
  simp

theorem strLeB_trans : ∀ a b c : String,
    decide (a ≤ b) = true → decide (b ≤ c) = true → decide (a ≤ c) = true := by
  intro a b c h1 h2
  simp only [decide_eq_true_eq] at h1 h2 ⊢
  exact le_trans h1 h2

theorem strLeB_total : ∀ a b : String, (decide (a ≤ b) || decide (b ≤ a)) = true := by
  intro a b
  simp only [Bool.or_eq_true, decide_eq_true_eq]
  exact le_total a b

theorem mergeSortStr_sorted (l : List String) :
    (l.mergeSort (fun a b => a ≤ b)).Pairwise (fun a b : String => a ≤ b) := by
  have h := List.sorted_mergeSort strLeB_trans strLeB_total l
  refine List.Pairwise.imp ?_ h
  intro a b hab
  exact of_decide_eq_true hab

theorem foldl_unplayed (extra : List MatchRec) :
    ∀ d : StatsTable, (∀ m ∈ extra, m.score1 = none ∨ m.score2 = none) →
      extra.foldl applyMatch d = d := by
  induction extra with
  | nil => intro d _; rfl
  | cons m ms ih =>
    intro d h
    rw [List.foldl_cons, applyMatch_unplayed d m (h m (List.mem_cons_self _ _))]
    exact ih d fun m' hm' => h m' (List.mem_cons_of_mem _ hm')

unseal List.mergeSort List.merge in
theorem exOrphan_eval : calculate_leaderboard exOrphan = [] := by decide

unseal List.mergeSort List.merge in
theorem exHalf_eval : calculate_leaderboard exHalf = [("A", ⟨1, 1, 0, 0, 2, 1, 1, 3⟩)] := by
  decide

/-- C1: the claim fails on the code. A snapshot whose single played match
references players A and B that are absent from the players list produces an
empty standings table: the absent players receive no stats row and the match
is not aggregated for them. -/
theorem C1_counterexample : calculate_leaderboard exOrphan = [] := exOrphan_eval

/-- C1 (amended): a player receives a stats row iff it appears in the
players list; a player referenced only inside matches gets no row, and such a
match is still processed without error, aggregating the participant that is
present (snapshot `exHalf`: A declared, B not). -/
theorem C1_rows_iff_players :
    (∀ (data : TournamentData) (p : String),
      (∃ st, (p, st) ∈ calculate_leaderboard data) ↔ p ∈ data.players)
    ∧ calculate_leaderboard exHalf = [("A", ⟨1, 1, 0, 0, 2, 1, 1, 3⟩)] :=
  ⟨exists_row_iff, exHalf_eval⟩

/-- C2: the standings output is sorted descending by the lexicographic key
`(Pts, GD, GF)`; rows tied on the whole key appear exactly in the order of
the pre-sort stats dict, whose key order is the first-occurrence order of the
input players list; and the rendered rank column is `1, 2, ..., n`, so even
fully tied players receive distinct consecutive ranks. -/
theorem C2_ranking (data : TournamentData) :
    ((calculate_leaderboard data).Pairwise (fun a b => keyLexLe (statKey b.2) (statKey a.2)))
    ∧ (∀ k : Nat × Int × Nat, (calculate_leaderboard data).filter (fun r => statKey r.2 = k)
        = (stats_dict data).filter (fun r => statKey r.2 = k))
    ∧ ((stats_dict data).map Prod.fst = dedupFrom [] data.players)
    ∧ ((leaderboard_rows data).map Prod.fst = List.range' 1 (calculate_leaderboard data).length) := by
  refine ⟨leaderboard_sorted data, ?_, ?_, leaderboard_ranks data⟩
  · intro k
    exact mergeSort_filter_key (stats_dict data) k
  · unfold stats_dict
    rw [keys_foldl_applyMatch, keys_mkInit]

unseal List.mergeSort List.merge in
theorem exAB_eval : calculate_leaderboard exAB
    = [("A", ⟨1, 1, 0, 0, 2, 1, 1, 3⟩), ("B", ⟨1, 0, 0, 1, 1, 2, -1, 0⟩)] := by decide

/-- C3: for a played match whose two (distinct) participants are in the stats
table, each participant's row gains GP+1, its own/opponent goals on GF/GA,
their difference on GD, and W/D/L with 3/1/0 points according to the score
comparison; on the spec's worked example A 2-1 B this yields the stated rows
in the order `[A, B]`. -/
theorem C3_match_update (d : StatsTable) (m : MatchRec) (s1 s2 : Nat) (st1 st2 : Stats)
    (h1 : m.score1 = some s1) (h2 : m.score2 = some s2)
    (hp1 : lookupSt d m.p1 = some st1) (hp2 : lookupSt d m.p2 = some st2)
    (hne : m.p1 ≠ m.p2) :
    lookupSt (applyMatch d m) m.p1 = some
      { st1 with
          GP := st1.GP + 1
          GF := st1.GF + s1
          GA := st1.GA + s2
          GD := st1.GD + ((s1 : Int) - (s2 : Int))
          W := st1.W + (if s1 > s2 then 1 else 0)
          D := st1.D + (if s1 = s2 then 1 else 0)
          L := st1.L + (if s2 > s1 then 1 else 0)
          Pts := st1.Pts + (if s1 > s2 then 3 else if s1 = s2 then 1 else 0) }
    ∧ lookupSt (applyMatch d m) m.p2 = some
      { st2 with
          GP := st2.GP + 1
          GF := st2.GF + s2
          GA := st2.GA + s1
          GD := st2.GD + ((s2 : Int) - (s1 : Int))
          W := st2.W + (if s2 > s1 then 1 else 0)
          D := st2.D + (if s1 = s2 then 1 else 0)
          L := st2.L + (if s1 > s2 then 1 else 0)
          Pts := st2.Pts + (if s2 > s1 then 3 else if s1 = s2 then 1 else 0) }
    ∧ calculate_leaderboard exAB
        = [("A", ⟨1, 1, 0, 0, 2, 1, 1, 3⟩), ("B", ⟨1, 0, 0, 1, 1, 2, -1, 0⟩)]
    ∧ (calculate_leaderboard exAB).map Prod.fst = ["A", "B"] := by
  refine ⟨?_, ?_, exAB_eval, by rw [exAB_eval]; rfl⟩
  · rw [lookupSt_applyMatch, hp1]
    simp only [Option.map_some']
    rw [matchEffect_p1_eq m s1 s2 h1 h2 hne st1]
  · rw [lookupSt_applyMatch, hp2]
    simp only [Option.map_some']
    rw [matchEffect_p2_eq m s1 s2 h1 h2 hne st2]

/-- C3 witness: the general update rule applied to the concrete snapshot
`exAB` at its single match. -/
theorem C3_match_update_witness :
    lookupSt (applyMatch (mkInit ["A", "B"]) exABm) exABm.p1
      = some ⟨1, 1, 0, 0, 2, 1, 1, 3⟩ := by
  have h := C3_match_update (mkInit ["A", "B"]) exABm 2 1 initStats initStats rfl rfl
    (by decide) (by decide) (by decide)
  rw [h.1]
  decide

unseal List.mergeSort List.merge in
theorem exHalf_sum_eval : sumGF (calculate_leaderboard exHalf) = 2
    ∧ sumGA (calculate_leaderboard exHalf) = 1 := by decide

/-- C4: the claim fails on the code. In `exHalf` the played match A 2-1 B has
participant B absent from the players list, so B's side of the goals is
dropped and the GF column sums to 2 while the GA column sums to 1. -/
theorem C4_counterexample :
    ¬ (sumGF (calculate_leaderboard exHalf) = sumGA (calculate_leaderboard exHalf)) := by
  rw [exHalf_sum_eval.1, exHalf_sum_eval.2]
  decide

/-- C4 (amended): goals are conserved — the GF column and the GA column of
the standings output have equal sums — provided every played match has both
participants in the players list. -/
theorem C4_conservation (data : TournamentData)
    (h : ∀ m ∈ data.matchList, playedM m → m.p1 ∈ data.players ∧ m.p2 ∈ data.players) :
    sumGF (calculate_leaderboard data) = sumGA (calculate_leaderboard data) := by
  unfold calculate_leaderboard
  rw [sumGF_mergeSort, sumGA_mergeSort]
  unfold stats_dict
  refine sum_conservation data.matchList (mkInit data.players) (nodup_keys_mkInit _) ?_ ?_
  · intro m hm s1 s2 hs1 hs2
    have hp := h m hm ⟨by rw [hs1]; rfl, by rw [hs2]; rfl⟩
    exact ⟨(mem_keys_mkInit _ _).mpr hp.1, (mem_keys_mkInit _ _).mpr hp.2⟩
  · rw [sumGF_mkInit, sumGA_mkInit]

/-- C4 witness: conservation on the concrete snapshot `exAB`, whose one
played match has both participants declared. -/
theorem C4_conservation_witness :
    sumGF (calculate_leaderboard exAB) = sumGA (calculate_leaderboard exAB) :=
  C4_conservation exAB (by decide)

/-- C5: the claim fails on the code. In `exDupData` player P is assigned team
X in two different matches; excluding the second match by the tab-2 rule
(remove the match's current team from the set) yields the empty set, while
blanking that match's team assignment still leaves X in the set coming from
the first match. -/
theorem C5_counterexample :
    ¬ (used_excl1 exDupData exDupM
        = get_used_teams (blank_team1 exDupData exDupM.match_id) exDupM.p1) := by
  decide

/-- C5 (amended): the tab-2 exclusion of a match equals the used-team set of
the match list with that match's team assignment blanked, provided match ids
are unique and the team assigned to the player in this match is not assigned
to the same player anywhere else (the one-team-per-player invariant); this
holds for the home and the away side. -/
theorem C5_exclusion (data : TournamentData) (m : MatchRec)
    (h0 : m ∈ data.matchList)
    (hid : ∀ x ∈ data.matchList, x.match_id = m.match_id → x = m)
    (hu1 : ∀ x ∈ data.matchList,
      (teamAssigned m.team1 → x.p1 = m.p1 → x.team1 = m.team1 → x = m) ∧
      ¬(teamAssigned m.team1 ∧ x.p2 = m.p1 ∧ x.team2 = m.team1))
    (hu2 : ∀ x ∈ data.matchList,
      (teamAssigned m.team2 → x.p2 = m.p2 → x.team2 = m.team2 → x = m) ∧
      ¬(teamAssigned m.team2 ∧ x.p1 = m.p2 ∧ x.team1 = m.team2)) :
    used_excl1 data m = get_used_teams (blank_team1 data m.match_id) m.p1
    ∧ used_excl2 data m = get_used_teams (blank_team2 data m.match_id) m.p2 := by
  constructor
  · refine used_excl1_eq_blank data m h0 hid ?_
    intro t hmt htne x hx
    have hta : teamAssigned m.team1 = true := by rw [hmt]; simp [teamAssigned, htne]
    refine ⟨fun hp1 ht1 => (hu1 x hx).1 hta hp1 (by rw [ht1, hmt]), ?_⟩
    rintro ⟨hp2, ht2⟩
    exact (hu1 x hx).2 ⟨hta, hp2, by rw [ht2, hmt]⟩
  · refine used_excl2_eq_blank data m h0 hid ?_
    intro t hmt htne x hx
    have hta : teamAssigned m.team2 = true := by rw [hmt]; simp [teamAssigned, htne]
    refine ⟨fun hp2 ht2 => (hu2 x hx).1 hta hp2 (by rw [ht2, hmt]), ?_⟩
    rintro ⟨hp1, ht1⟩
    exact (hu2 x hx).2 ⟨hta, hp1, by rw [ht1, hmt]⟩

/-- C5 witness: the exclusion equivalence applied to the clean snapshot
`exCleanData` at match 1. -/
theorem C5_exclusion_witness :
    used_excl1 exCleanData exCleanM
        = get_used_teams (blank_team1 exCleanData exCleanM.match_id) exCleanM.p1
    ∧ used_excl2 exCleanData exCleanM
        = get_used_teams (blank_team2 exCleanData exCleanM.match_id) exCleanM.p2 :=
  C5_exclusion exCleanData exCleanM (by decide) (by decide) (by decide) (by decide)

/-- C6: `get_used_teams` is exactly the spec's set — team1 values of matches
where the player is p1 and team1 is assigned, unioned with team2 values of
matches where the player is p2 and team2 is assigned (duplicates collapse in
the set; an unassigned or empty team contributes nothing) — and a player
mentioned by no match gets the empty set, not an error. -/
theorem C6_used_teams (data : TournamentData) (p : String) :
    get_used_teams data p = usedTeamsSpec data p
    ∧ ((∀ m ∈ data.matchList, ¬ m.p1 = p ∧ ¬ m.p2 = p) → get_used_teams data p = ∅) := by
  constructor
  · ext t
    rw [mem_get_used_teams]
    simp only [usedTeamsSpec, Finset.mem_union, List.mem_toFinset, List.mem_filterMap,
      List.mem_filter, decide_eq_true_eq]
    constructor
    · rintro ⟨m, hm, hc⟩
      rcases (mem_matchContrib p t m).mp hc with ⟨hp1, ht1, htne⟩ | ⟨hp2, ht2, htne⟩
      · exact Or.inl ⟨m, ⟨hm, hp1, by rw [ht1]; simpa [teamAssigned] using htne⟩, ht1⟩
      · exact Or.inr ⟨m, ⟨hm, hp2, by rw [ht2]; simpa [teamAssigned] using htne⟩, ht2⟩
    · rintro (⟨m, ⟨hm, hp1, hta⟩, ht1⟩ | ⟨m, ⟨hm, hp2, hta⟩, ht2⟩)
      · refine ⟨m, hm, (mem_matchContrib p t m).mpr (Or.inl ⟨hp1, ht1, ?_⟩)⟩
        rw [ht1] at hta
        simpa [teamAssigned] using hta
      · refine ⟨m, hm, (mem_matchContrib p t m).mpr (Or.inr ⟨hp2, ht2, ?_⟩)⟩
        rw [ht2] at hta
        simpa [teamAssigned] using hta
  · intro h
    ext t
    rw [mem_get_used_teams]
    simp only [Finset.not_mem_empty, iff_false, not_exists]
    intro m
    rintro ⟨hm, hc⟩
    rcases (mem_matchContrib p t m).mp hc with ⟨hp1, _, _⟩ | ⟨hp2, _, _⟩
    · exact (h m hm).1 hp1
    · exact (h m hm).2 hp2

/-- C6 witness: the characterisation at a concrete snapshot and at a player
with no matches. -/
theorem C6_used_teams_witness :
    get_used_teams exCleanData "Z" = usedTeamsSpec exCleanData "Z"
    ∧ get_used_teams exCleanData "Z" = ∅ :=
  ⟨(C6_used_teams exCleanData "Z").1, (C6_used_teams exCleanData "Z").2 (by decide)⟩

/-- C7: the claim fails on the code. In `exOffRosterData` the edited match
currently assigns team ZZZ, which is not a roster entry; the spec formula
`roster − used_excl ∪ {current}` includes ZZZ among the options, but the
code's option list is built only from `TOP_TEAMS` and never offers ZZZ. -/
theorem C7_counterexample :
    opts_p1 exOffRosterData exOffRosterM ≠ opts_spec1 exOffRosterData exOffRosterM := by
  intro h
  have h1 : ("ZZZ" : String) ∈ opts_spec1 exOffRosterData exOffRosterM := by
    unfold opts_spec1
    rw [Finset.mem_sort, Finset.mem_union]
    right
    simp [exOffRosterM]
  have h2 : ("ZZZ" : String) ∉ opts_p1 exOffRosterData exOffRosterM := by
    rw [mem_opts_p1]
    rintro ⟨hh, _⟩
    rw [TOP_TEAMS, List.mem_mergeSort] at hh
    revert hh
    decide
  exact h2 (h ▸ h1)

/-- C7 (amended): for either side of an edited match the offered options are
sorted ascending and are exactly the roster entries not in the tab-2
excluded used-team set; the currently assigned team stays selectable
whenever it is a roster entry (it never self-blocks), and for a match whose
team is still unassigned no offered option is already in the player's
used-team set. -/
theorem C7_options (data : TournamentData) (m : MatchRec) :
    ((opts_p1 data m).Pairwise (fun a b : String => a ≤ b))
    ∧ ((opts_p2 data m).Pairwise (fun a b : String => a ≤ b))
    ∧ (∀ t, t ∈ opts_p1 data m ↔ t ∈ TOP_TEAMS ∧ t ∉ used_excl1 data m)
    ∧ (∀ t, t ∈ opts_p2 data m ↔ t ∈ TOP_TEAMS ∧ t ∉ used_excl2 data m)
    ∧ (∀ t, m.team1 = some t → t ∈ TOP_TEAMS → t ∈ opts_p1 data m)
    ∧ (∀ t, m.team2 = some t → t ∈ TOP_TEAMS → t ∈ opts_p2 data m)
    ∧ (m.team1 = none → ∀ t ∈ opts_p1 data m, t ∉ get_used_teams data m.p1)
    ∧ (m.team2 = none → ∀ t ∈ opts_p2 data m, t ∉ get_used_teams data m.p2) := by
  refine ⟨mergeSortStr_sorted _, mergeSortStr_sorted _,
    mem_opts_p1 data m, mem_opts_p2 data m, ?_, ?_, ?_, ?_⟩
  · intro t hmt htop
    rw [mem_opts_p1]
    exact ⟨htop, current_not_in_excl1 data m t hmt⟩
  · intro t hmt htop
    rw [mem_opts_p2]
    exact ⟨htop, current_not_in_excl2 data m t hmt⟩
  · intro hnone t hto
    rw [mem_opts_p1] at hto
    have hx : used_excl1 data m = get_used_teams data m.p1 := by
      simp [used_excl1, hnone]
    rw [← hx]
    exact hto.2
  · intro hnone t hto
    rw [mem_opts_p2] at hto
    have hx : used_excl2 data m = get_used_teams data m.p2 := by
      simp [used_excl2, hnone]
    rw [← hx]
    exact hto.2

/-- C7 witness: the never-self-blocks clause at match 1 of `exCleanData`
(`Arsenal` is a roster entry) and the unassigned-match clause at match 2. -/
theorem C7_options_witness :
    (("Arsenal" : String) ∈ opts_p1 exCleanData exCleanM)
    ∧ (∀ t ∈ opts_p1 exCleanData exCleanM2, t ∉ get_used_teams exCleanData exCleanM2.p1) :=
  ⟨(C7_options exCleanData exCleanM).2.2.2.2.1 "Arsenal" rfl
      (by rw [TOP_TEAMS, List.mem_mergeSort]; decide),
    (C7_options exCleanData exCleanM2).2.2.2.2.2.2.1 rfl⟩

/-- C8: appending any number of unplayed matches (a missing score on either
side) to the match list leaves the standings output unchanged, and no error
arises — the fold simply skips them. -/
theorem C8_unplayed (data : TournamentData) (extra : List MatchRec)
    (h : ∀ m ∈ extra, m.score1 = none ∨ m.score2 = none) :
    calculate_leaderboard { data with matchList := data.matchList ++ extra }
      = calculate_leaderboard data := by
  show ((data.matchList ++ extra).foldl applyMatch (mkInit data.players)).mergeSort rowLe
      = (data.matchList.foldl applyMatch (mkInit data.players)).mergeSort rowLe
  rw [List.foldl_append, foldl_unplayed extra _ h]

/-- C8 witness: appending two unplayed matches to `exAB` leaves the
standings unchanged. -/
theorem C8_unplayed_witness :
    calculate_leaderboard { exAB with matchList := exAB.matchList ++ exUnplayed }
      = calculate_leaderboard exAB :=
  C8_unplayed exAB exUnplayed (by decide)

/-- C9: every row of every standings output satisfies `Pts = 3*W + D`, and
each step of the match fold preserves this invariant. -/
theorem C9_points (data : TournamentData) :
    (∀ r ∈ calculate_leaderboard data, r.2.Pts = 3 * r.2.W + r.2.D)
    ∧ (∀ (d : StatsTable) (m : MatchRec),
        (∀ r ∈ d, r.2.Pts = 3 * r.2.W + r.2.D) →
        ∀ r ∈ applyMatch d m, r.2.Pts = 3 * r.2.W + r.2.D) := by
  constructor
  · intro r hr
    have hmem : r ∈ data.matchList.foldl applyMatch (mkInit data.players) :=
      List.mem_mergeSort.mp hr
    refine foldl_preserve (fun m p st h => matchEffect_pts_inv m p st h)
      data.matchList (mkInit data.players) ?_ r hmem
    intro kv hkv
    rw [mkInit_entries data.players kv hkv]
    rfl
  · intro d m hall r hr
    rw [applyMatch_eq_map, mapEntries] at hr
    rcases List.mem_map.mp hr with ⟨kv, hkv, rfl⟩
    exact matchEffect_pts_inv m kv.1 kv.2 (hall kv hkv)

/-- C9 witness: the fold-step clause applied to the seeded table of `exAB`
and its match. -/
theorem C9_points_witness :
    ∀ r ∈ applyMatch (mkInit ["A", "B"]) exABm, r.2.Pts = 3 * r.2.W + r.2.D :=
  (C9_points exAB).2 (mkInit ["A", "B"]) exABm (by decide)

/-- C10: every row of every standings output satisfies `GP = W + D + L` —
each played match counted in GP is classified as exactly one of win, draw or
loss under the same membership condition — and each fold step preserves the
identity. -/
theorem C10_games (data : TournamentData) :
    (∀ r ∈ calculate_leaderboard data, r.2.GP = r.2.W + r.2.D + r.2.L)
    ∧ (∀ (d : StatsTable) (m : MatchRec),
        (∀ r ∈ d, r.2.GP = r.2.W + r.2.D + r.2.L) →
        ∀ r ∈ applyMatch d m, r.2.GP = r.2.W + r.2.D + r.2.L) := by
  constructor
  · intro r hr
    have hmem : r ∈ data.matchList.foldl applyMatch (mkInit data.players) :=
      List.mem_mergeSort.mp hr
    refine foldl_preserve (fun m p st h => matchEffect_gp_inv m p st h)
      data.matchList (mkInit data.players) ?_ r hmem
    intro kv hkv
    rw [mkInit_entries data.players kv hkv]
    rfl
  · intro d m hall r hr
    rw [applyMatch_eq_map, mapEntries] at hr
    rcases List.mem_map.mp hr with ⟨kv, hkv, rfl⟩
    exact matchEffect_gp_inv m kv.1 kv.2 (hall kv hkv)

/-- C10 witness: the fold-step clause applied to the seeded table of `exAB`
and its match. -/
theorem C10_games_witness :
    ∀ r ∈ applyMatch (mkInit ["A", "B"]) exABm, r.2.GP = r.2.W + r.2.D + r.2.L :=
  (C10_games exAB).2 (mkInit ["A", "B"]) exABm (by decide)
